import Mathlib

/-!
# HoneyBadger packet pipeline — verification of the connection pool,
# dispatcher, decoder and shutdown path

Shallow embedding of the HoneyBadger TCP-monitoring pipeline:

* `src/packetSource/service.go` — `Inquisitor`: capture / decode / dispatch
  goroutines, `Stop`, `setupNewConnection`, `dispatchPackets`;
* `src/cmd/honeyBadger/main.go` — `main` startup check and the `Sniffer`
  decode loop;
* `src/unnamed/part_000` — the older `Inquisitor.CloseOlderThan` /
  `CloseAllConnections` and the connection-pool tests.

The `ConnectionPool` / `TcpIpFlow` implementation itself is not part of the
three source files (only its tests and callers are), so those operations are
modelled from the spec, with doc comments saying so.  Times are modelled as
`Int` (nanoseconds of `time.Time`), payloads as `List Nat` (byte slices).
-/

namespace HoneyBadger

/-- A TCP/IP flow: the four-tuple carried by `types.TcpIpFlow`
(IP source/destination of the IPv4 layer, ports of the TCP layer).
IPs and ports are modelled as `Nat`. -/
structure TcpIpFlow where
  ipSrc : Nat
  ipDst : Nat
  portSrc : Nat
  portDst : Nat
deriving DecidableEq, Repr

/-- `flow.Reverse()` of the `types` package: swaps source and destination
of both the IP and the TCP layer. -/
def TcpIpFlow.Reverse (f : TcpIpFlow) : TcpIpFlow :=
  ⟨f.ipDst, f.ipSrc, f.portDst, f.portSrc⟩

/-- Modelled from the spec: the connection pool's key is the unordered pair
of endpoints ("equality is direction-agnostic; two packets of a conversation
hash identically regardless of direction").  The `ConnectionPool`
implementation is not among the source files; we realise the direction-
agnostic key as the canonical orientation of the four-tuple: the
lexicographically smaller (ip, port) endpoint first. -/
def canonKey (f : TcpIpFlow) : TcpIpFlow :=
  if f.ipSrc < f.ipDst then f
  else if f.ipDst < f.ipSrc then f.Reverse
  else if f.portSrc ≤ f.portDst then f
  else f.Reverse

/-- Connections are identified by a numeric id in this model; the dispatcher
manipulates them only through the pool and the per-connection channels. -/
abbrev ConnId := Nat

/-- Modelled from the spec: `ConnectionPool` is a "mapping from flow key to
connection", "uniqueness on direction-agnostic key".  The implementation is
not among the source files (its tests in `src/unnamed/part_000` exercise
`connectionMap`); we model the map as an association list keyed by the
canonical flow orientation. -/
structure ConnectionPool where
  connectionMap : List (TcpIpFlow × ConnId)
deriving DecidableEq, Repr

/-- Modelled from the spec: a fresh, empty pool (`NewConnectionPool`). -/
def ConnectionPool.new : ConnectionPool := ⟨[]⟩

/-- Modelled from the spec: `pool.Has(flow)` — direction-agnostic membership
test. -/
def ConnectionPool.Has (p : ConnectionPool) (f : TcpIpFlow) : Bool :=
  (p.connectionMap.find? (fun kv => decide (kv.1 = canonKey f))).isSome

/-- Modelled from the spec: `pool.Get(flow) → Connection | NotFoundError`. -/
def ConnectionPool.Get (p : ConnectionPool) (f : TcpIpFlow) :
    Except String ConnId :=
  match p.connectionMap.find? (fun kv => decide (kv.1 = canonKey f)) with
  | some kv => .ok kv.2
  | none => .error "connection not found"

/-- Modelled from the spec: `pool.Put(flow, conn)` — map assignment on the
direction-agnostic key (overwrites any previous binding of the key). -/
def ConnectionPool.Put (p : ConnectionPool) (f : TcpIpFlow) (c : ConnId) :
    ConnectionPool :=
  ⟨(canonKey f, c) :: p.connectionMap.filter (fun kv => decide (kv.1 ≠ canonKey f))⟩

/-- Modelled from the spec: `pool.Len()` — number of tracked connections. -/
def ConnectionPool.Len (p : ConnectionPool) : Nat :=
  p.connectionMap.length

/-! ## Connections and idle reaping

`src/unnamed/part_000` lines 65–76: `Inquisitor.CloseOlderThan` walks the
pool's connections and calls `conn.Close()` on every connection whose
`lastSeen` is `Equal` to or `Before` the threshold, counting how many
closures it initiated.  We model a connection by the state this loop
observes and mutates: its `lastSeen` time and whether closure has been
initiated. -/

/-- The per-connection state seen by the reaper: `lastSeen` timestamp
(as `Int` nanoseconds) and whether `Close()` has been called. -/
structure Connection where
  lastSeen : Int
  closed : Bool
deriving DecidableEq, Repr

/-- `conn.Close()` — initiates closure of the connection (the actual
teardown drains asynchronously; for the reaper's contract only the
initiation matters). -/
def Connection.Close (c : Connection) : Connection :=
  { c with closed := true }

/-- `conn.lastSeen.Equal(t) || conn.lastSeen.Before(t)` from
`part_000` line 70: the time comparison used by `CloseOlderThan`. -/
def timeLeq (a t : Int) : Bool :=
  a == t || a < t

/-- `Inquisitor.CloseOlderThan(t)` (`part_000` lines 65–76): for each
connection in the pool, if `lastSeen` is equal to or before `t`, call
`Close()` and increment the counter; return the updated connections and the
count of closures initiated. -/
def CloseOlderThan (t : Int) : List Connection → List Connection × Nat
  | [] => ([], 0)
  | c :: cs =>
    let (rest, n) := CloseOlderThan t cs
    if timeLeq c.lastSeen t then (c.Close :: rest, n + 1)
    else (c :: rest, n)

/-! ## Decoder

`src/packetSource/service.go` lines 165–197 (`Inquisitor.decodePackets`) and
the identical loop in `src/cmd/honeyBadger/main.go` lines 275–309
(`Sniffer.decodePackets`): the decode goroutine keeps long-lived layer
variables (`eth`, `ip`, `tcp`, `payload`) that the `DecodingLayerParser`
writes into.  Per raw packet it (1) resets the `payload` variable to a fresh
empty `gopacket.Payload`, (2) runs `parser.DecodeLayers`, (3) on error
`continue`s (no manifest emitted), (4) otherwise builds a `PacketManifest`
from the layer variables and sends it on. -/

/-- A timed raw packet, as produced by the capture goroutine
(`TimedRawPacket`). -/
structure RawPacket where
  timestamp : Int
  raw : List Nat
deriving DecidableEq, Repr

/-- What a successful `parser.DecodeLayers` call writes into the layer
variables: the flow derived from the IP/TCP layers, and — only when the
packet actually carries a payload layer — the payload bytes.  The
Ethernet/IPv4/TCP parser itself is external (`gopacket`); the decoder's
behaviour is parametric in its outcome. -/
structure ParsedLayers where
  flow : TcpIpFlow
  payload : Option (List Nat)
deriving DecidableEq, Repr

/-- The decode goroutine's mutable state across loop iterations: the
long-lived `payload` layer variable that `DecodeLayers` writes into. -/
structure DecoderVars where
  payload : List Nat
deriving DecidableEq, Repr

/-- The manifest passed from decode to dispatch
(`HoneyBadger.PacketManifest`): timestamp, flow, raw bytes, payload.
The parsed IP/TCP headers are carried opaquely through `flow`. -/
structure PacketManifest where
  Timestamp : Int
  Flow : TcpIpFlow
  RawPacket : List Nat
  Payload : List Nat
deriving DecidableEq, Repr

/-- One iteration of the decode loop on a received packet
(`service.go` lines 178–194): reset `payload` to a fresh empty value, run
the parser (`parse` is its outcome on these raw bytes), drop the packet on
parse error, otherwise update the layer variables and emit the manifest. -/
def decodeOne (parse : List Nat → Option ParsedLayers) (v : DecoderVars)
    (pkt : RawPacket) : DecoderVars × Option PacketManifest :=
  let v : DecoderVars := { v with payload := [] }
  match parse pkt.raw with
  | none => (v, none)
  | some pr =>
    let v : DecoderVars := match pr.payload with
      | some bytes => { v with payload := bytes }
      | none => v
    (v, some { Timestamp := pkt.timestamp, Flow := pr.flow,
               RawPacket := pkt.raw, Payload := v.payload })

/-- The decode loop over a stream of raw packets, threading the layer
variables and collecting the emitted manifests in order. -/
def decodeAll (parse : List Nat → Option ParsedLayers) (v : DecoderVars) :
    List RawPacket → List PacketManifest
  | [] => []
  | p :: ps =>
    match decodeOne parse v p with
    | (v', none) => decodeAll parse v' ps
    | (v', some m) => m :: decodeAll parse v' ps

/-! ## Dispatcher

`src/packetSource/service.go` lines 225–263 (`Inquisitor.dispatchPackets`):
each loop iteration first does a non-blocking receive on
`closeConnectionChan` (stopping one requesting connection if a request is
pending), then selects over the idle ticker, the stop signal, and the packet
channel.  Packet handling: pool lookup by flow; on a hit deliver the
manifest to the existing connection; on a miss, if
`MaxConcurrentConnections != 0` and `pool.Len() >= MaxConcurrentConnections`
silently drop (`continue`); otherwise `setupNewConnection` (lines 199–223:
`pool.Put`, then `conn.Start()`) and deliver the manifest. -/

/-- Observable actions of one dispatcher iteration, in program order. -/
inductive DispEvent where
  /-- `conn.Stop()` on a connection received from `closeConnectionChan`. -/
  | stopConn (c : ConnId)
  /-- `pool.CloseOlderThan(threshold)` triggered by the idle ticker. -/
  | reapOlderThan (threshold : Int)
  /-- `pool.Put(flow, conn)` inside `setupNewConnection`. -/
  | poolPut (f : TcpIpFlow) (c : ConnId)
  /-- `conn.Start()` inside `setupNewConnection`. -/
  | connStart (c : ConnId)
  /-- `conn.ReceivePacket(&packetManifest)`. -/
  | receivePacket (c : ConnId) (m : PacketManifest)
  /-- the `panic(err)` arm after a `Get` that follows a successful `Has`. -/
  | panicked (msg : String)
deriving DecidableEq, Repr

/-- Dispatcher state threaded between iterations: the connection pool, the
id the next created connection will get, the queue of connections blocked
sending on the unbuffered `closeConnectionChan` (oldest first), and whether
the loop has returned. -/
structure DispatcherState where
  pool : ConnectionPool
  nextConnId : ConnId
  pendingClose : List ConnId
  halted : Bool
deriving DecidableEq, Repr

/-- `Inquisitor.setupNewConnection` followed by the delivery in
`dispatchPackets` lines 251–260: create the connection, `pool.Put` it,
`conn.Start()` it, then `conn.ReceivePacket(&packetManifest)` — in that
order.  The capacity check (lines 252–256) precedes creation: when
`MaxConcurrentConnections != 0` and the pool is full the packet is dropped
with no action at all.  `mcc` is the Go `int` `MaxConcurrentConnections`. -/
def dispatchManifest (mcc : Int) (st : DispatcherState) (m : PacketManifest) :
    DispatcherState × List DispEvent :=
  if st.pool.Has m.Flow then
    match st.pool.Get m.Flow with
    | .ok conn => (st, [.receivePacket conn m])
    | .error e => (st, [.panicked e])
  else if mcc ≠ 0 ∧ (st.pool.Len : Int) ≥ mcc then
    (st, [])
  else
    let conn := st.nextConnId
    ({ st with pool := st.pool.Put m.Flow conn, nextConnId := conn + 1 },
     [.poolPut m.Flow conn, .connStart conn, .receivePacket conn m])

/-- What the second `select` of a dispatcher iteration sees: a ticker tick
at wall-clock `now`, the stop signal, or a decoded packet manifest. -/
inductive DispatchInput where
  | tick (now : Int)
  | stopSignal
  | packet (m : PacketManifest)
deriving DecidableEq, Repr

/-- One iteration of the `dispatchPackets` loop.  First the non-blocking
`select` on `closeConnectionChan` (lines 231–236): if a close request is
pending, receive one and `Stop()` that connection.  Then the main `select`
(lines 237–261): a tick runs `pool.CloseOlderThan(time.Now().Add(timeout * -1))`,
the stop signal returns from the loop, a packet goes through pool
lookup/creation/delivery.  `timeout` is `TcpIdleTimeout`. -/
def dispatchCycle (mcc timeout : Int) (st : DispatcherState)
    (inp : DispatchInput) : DispatcherState × List DispEvent :=
  let (st, closeEvs) :=
    match st.pendingClose with
    | [] => (st, ([] : List DispEvent))
    | c :: rest => ({ st with pendingClose := rest }, [.stopConn c])
  match inp with
  | .tick now => (st, closeEvs ++ [.reapOlderThan (now - timeout)])
  | .stopSignal => ({ st with halted := true }, closeEvs)
  | .packet m =>
    let (st, evs) := dispatchManifest mcc st m
    (st, closeEvs ++ evs)

/-- Ticker construction in `dispatchPackets` lines 228–229:
`timeout := i.InquisitorOptions.TcpIdleTimeout; ticker := time.Tick(timeout)`
— the period of the dispatcher's internal timer. -/
def tickerPeriod (tcpIdleTimeout : Int) : Int := tcpIdleTimeout

/-! ## Shutdown

`src/packetSource/service.go` lines 104–112 (`Inquisitor.Stop`) and
131–163 (`capturePackets`): on `io.EOF` from `ReadPacketData` the capture
goroutine calls `i.Stop()`.  `Stop` performs, sequentially (each channel is
unbuffered, so each send completes only when the corresponding goroutine
has received the signal): send on `stopDispatchChan`, send on
`stopDecodeChan`, send on `stopCaptureChan`, `pool.CloseAllConnections()`,
`handle.Close()`, `pager.Stop()`. -/

/-- The observable steps of `Inquisitor.Stop`. -/
inductive ShutdownEvent where
  | stopDispatchSignal
  | stopDecodeSignal
  | stopCaptureSignal
  | poolCloseAll
  | handleClose
  | pagerStop
deriving DecidableEq, Repr

/-- The sequence of actions `Inquisitor.Stop` performs, in program order
(`service.go` lines 105–112). -/
def inquisitorStopTrace : List ShutdownEvent :=
  [.stopDispatchSignal, .stopDecodeSignal, .stopCaptureSignal,
   .poolCloseAll, .handleClose, .pagerStop]

/-- On end-of-stream the capture goroutine (`service.go` lines 137–143)
logs and calls `i.Stop()`; the shutdown actions are exactly those of
`Stop`. -/
def eofShutdownTrace : List ShutdownEvent := inquisitorStopTrace

/-- Position of the first occurrence of an event in a shutdown trace. -/
def shutdownIndex (e : ShutdownEvent) (tr : List ShutdownEvent) : Nat :=
  tr.findIdx (fun x => decide (x = e))

/-! ## Startup check

`src/cmd/honeyBadger/main.go` lines 62–69: after parsing flags and the wire
timeout, `main` checks `*maxConcurrentConnections == 0 && *bufferedTotal == 0`
and `log.Fatal`s if so; only after this check does it build the logger,
dispatcher and sniffer options and start the supervisor. -/

/-- Outcome of `main`'s startup sequence up to the point where capture
would begin. -/
inductive StartupResult where
  | fatalExit (msg : String)
  | started
deriving DecidableEq, Repr

/-- The startup gate of `main` (`main.go` lines 67–69): with both
`max_concurrent_connections` and `total_max_buffer` zero the process halts
fatally before any component is constructed; otherwise startup proceeds to
`supervisor.Run()`. -/
def mainStartup (maxConcurrentConnections bufferedTotal : Int) :
    StartupResult :=
  if maxConcurrentConnections = 0 ∧ bufferedTotal = 0 then
    .fatalExit "connection_max_buffer and or total_max_buffer must be set to a non-zero value"
  else
    .started

/-! ## Concrete fixtures

Flows follow the pool tests in `src/unnamed/part_000`: client `1.2.3.4:1`,
server `2.3.4.5:2` (IPv4 addresses encoded as big-endian `Nat`s). -/

def flowA : TcpIpFlow := ⟨16909060, 33752069, 1, 2⟩

def flowB : TcpIpFlow := ⟨16909060, 33752069, 3, 4⟩

def manifestA : PacketManifest :=
  { Timestamp := 100, Flow := flowA, RawPacket := [0], Payload := [1, 2, 3] }

def manifestB : PacketManifest :=
  { Timestamp := 101, Flow := flowB, RawPacket := [1], Payload := [] }

def manifestArev : PacketManifest :=
  { Timestamp := 102, Flow := flowA.Reverse, RawPacket := [2], Payload := [4] }

/-- A dispatcher state whose pool already tracks one conversation. -/
def stOne : DispatcherState :=
  { pool := ConnectionPool.new.Put flowA 0, nextConnId := 1,
    pendingClose := [], halted := false }

/-- A dispatcher state with an empty pool. -/
def stEmpty : DispatcherState :=
  { pool := ConnectionPool.new, nextConnId := 0,
    pendingClose := [], halted := false }

/-- A dispatcher state tracking two conversations, with both connections
blocked sending close requests (connection `0` first in the channel
queue). -/
def stPending : DispatcherState :=
  { pool := (ConnectionPool.new.Put flowA 0).Put flowB 1, nextConnId := 2,
    pendingClose := [0, 1], halted := false }

/-! ## Helper lemmas -/

theorem canonKey_reverse (f : TcpIpFlow) : canonKey f.Reverse = canonKey f := by
  unfold canonKey TcpIpFlow.Reverse
  rcases f with ⟨a, b, p, q⟩
  simp only
  rcases Nat.lt_trichotomy a b with h | h | h
  · simp [h, Nat.not_lt_of_lt h, Nat.lt_irrefl]
  · subst h
    simp only [Nat.lt_irrefl, if_false]
    rcases Nat.le_total p q with hp | hp
    · rcases Nat.lt_or_ge p q with hq | hq
      · simp [hp, Nat.not_le_of_lt hq]
      · have : p = q := Nat.le_antisymm hp hq
        subst this
        simp
    · rcases Nat.lt_or_ge q p with hq | hq
      · simp [hp, Nat.not_le_of_lt hq]
      · have : q = p := Nat.le_antisymm hp hq
        subst this
        simp
  · simp [h, Nat.not_lt_of_lt h, Nat.lt_irrefl]

theorem Has_iff_Get_ok (p : ConnectionPool) (f : TcpIpFlow) :
    p.Has f = true ↔ ∃ c, p.Get f = .ok c := by
  unfold ConnectionPool.Has ConnectionPool.Get
  cases p.connectionMap.find? (fun kv => decide (kv.1 = canonKey f)) with
  | none => simp
  | some kv => simp

theorem timeLeq_eq_le (a t : Int) : timeLeq a t = decide (a ≤ t) := by
  unfold timeLeq
  by_cases h : a ≤ t
  · rcases lt_or_eq_of_le h with h' | h'
    · simp [h, h']
    · simp [h, h']
  · have h1 : ¬ a = t := fun he => h (le_of_eq he)
    have h2 : ¬ a < t := fun hl => h (le_of_lt hl)
    simp [h, h1, h2]

theorem CloseOlderThan_spec (t : Int) (conns : List Connection) :
    CloseOlderThan t conns =
      (conns.map (fun c => if c.lastSeen ≤ t then c.Close else c),
       (conns.filter (fun c => decide (c.lastSeen ≤ t))).length) := by
  induction conns with
  | nil => rfl
  | cons c cs ih =>
    unfold CloseOlderThan
    rw [ih, timeLeq_eq_le]
    by_cases h : c.lastSeen ≤ t
    · simp [h, List.filter]
    · simp [h, List.filter]

theorem decodeOne_vars_irrelevant (parse : List Nat → Option ParsedLayers)
    (v v' : DecoderVars) (pkt : RawPacket) :
    decodeOne parse v pkt = decodeOne parse v' pkt := by
  unfold decodeOne
  cases parse pkt.raw with
  | none => rfl
  | some pr => cases pr.payload <;> rfl

theorem decodeAll_vars_irrelevant (parse : List Nat → Option ParsedLayers)
    (v v' : DecoderVars) (ps : List RawPacket) :
    decodeAll parse v ps = decodeAll parse v' ps := by
  cases ps with
  | nil => rfl
  | cons p ps =>
    unfold decodeAll
    rw [decodeOne_vars_irrelevant parse v v' p]

/-! ## Claims -/

/-- C1: when `MaxConcurrentConnections > 0` and the pool already holds at
least that many connections, a manifest whose flow is not pooled is dropped:
the dispatcher state is unchanged (no creation, no eviction) and no event —
no delivery, no report — is produced; a manifest whose flow is already
pooled is still delivered unchanged to its connection. -/
theorem claim_C1_capacity_drop (mcc : Int) (st : DispatcherState)
    (m m2 : PacketManifest) :
    (st.pool.Has m.Flow = false → 0 < mcc → (st.pool.Len : Int) ≥ mcc →
      dispatchManifest mcc st m = (st, [])) ∧
    (st.pool.Has m2.Flow = true →
      ∃ c, st.pool.Get m2.Flow = .ok c ∧
        dispatchManifest mcc st m2 = (st, [.receivePacket c m2])) := by
  constructor
  · intro hmiss hpos hfull
    unfold dispatchManifest
    rw [hmiss]
    simp only [Bool.false_eq_true, if_false]
    rw [if_pos ⟨Int.ne_of_gt hpos, hfull⟩]
  · intro hhit
    obtain ⟨c, hc⟩ := (Has_iff_Get_ok st.pool m2.Flow).mp hhit
    refine ⟨c, hc, ?_⟩
    unfold dispatchManifest
    rw [hhit, hc]
    simp

theorem claim_C1_capacity_drop_witness :
    dispatchManifest 1 stOne manifestB = (stOne, []) ∧
    (∃ c, stOne.pool.Get manifestA.Flow = .ok c ∧
      dispatchManifest 1 stOne manifestA = (stOne, [.receivePacket c manifestA])) :=
  ⟨(claim_C1_capacity_drop 1 stOne manifestB manifestA).1 (by decide) (by decide)
      (by decide),
   (claim_C1_capacity_drop 1 stOne manifestB manifestA).2 (by decide)⟩

/-- C2: pool lookup is direction-agnostic — `Has` and `Get` return the same
results for a flow and its reverse, so both directions of one conversation
map to a single pool entry. -/
theorem claim_C2_direction_agnostic (p : ConnectionPool) (f : TcpIpFlow) :
    p.Has f.Reverse = p.Has f ∧ p.Get f.Reverse = p.Get f := by
  unfold ConnectionPool.Has ConnectionPool.Get
  rw [canonKey_reverse]
  exact ⟨rfl, rfl⟩

/-- C3: `CloseOlderThan t` initiates closure on exactly those connections
whose `lastSeen ≤ t` (each of these ends up with `Close` applied), leaves
every connection with `lastSeen > t` untouched, and returns the number of
closures it initiated. -/
theorem claim_C3_closeOlderThan (t : Int) (conns : List Connection) :
    (CloseOlderThan t conns).2 =
      (conns.filter (fun c => decide (c.lastSeen ≤ t))).length ∧
    (CloseOlderThan t conns).1 =
      conns.map (fun c => if c.lastSeen ≤ t then c.Close else c) ∧
    (∀ c ∈ conns, t < c.lastSeen →
      (if c.lastSeen ≤ t then c.Close else c) = c) := by
  rw [CloseOlderThan_spec]
  refine ⟨rfl, rfl, ?_⟩
  intro c _ hlt
  rw [if_neg (not_le.mpr hlt)]

theorem claim_C3_closeOlderThan_witness :
    (CloseOlderThan 10 [⟨5, false⟩, ⟨10, false⟩, ⟨11, false⟩]).2 =
      ([⟨5, false⟩, ⟨10, false⟩, ⟨11, false⟩].filter
        (fun c : Connection => decide (c.lastSeen ≤ 10))).length ∧
    (CloseOlderThan 10 [⟨5, false⟩, ⟨10, false⟩, ⟨11, false⟩]).1 =
      [⟨5, false⟩, ⟨10, false⟩, ⟨11, false⟩].map
        (fun c : Connection => if c.lastSeen ≤ 10 then c.Close else c) ∧
    (if (11 : Int) ≤ 10 then Connection.Close ⟨11, false⟩ else ⟨11, false⟩) =
      (⟨11, false⟩ : Connection) :=
  ⟨(claim_C3_closeOlderThan 10 _).1,
   (claim_C3_closeOlderThan 10 _).2.1,
   (claim_C3_closeOlderThan 10 [⟨5, false⟩, ⟨10, false⟩, ⟨11, false⟩]).2.2
     ⟨11, false⟩ (by decide) (by decide)⟩

/-- C7: startup requires at least one of `MaxConcurrentConnections` and
`BufferedTotal` non-zero: both zero halts fatally before capture begins;
at least one non-zero lets startup proceed. -/
theorem claim_C7_startup_gate (mcc btot : Int) :
    (mcc = 0 ∧ btot = 0 →
      mainStartup mcc btot = .fatalExit
        "connection_max_buffer and or total_max_buffer must be set to a non-zero value") ∧
    (mcc ≠ 0 ∨ btot ≠ 0 → mainStartup mcc btot = .started) := by
  constructor
  · intro h
    unfold mainStartup
    rw [if_pos h]
  · intro h
    unfold mainStartup
    rw [if_neg (by tauto)]

theorem claim_C7_startup_gate_witness :
    mainStartup 0 0 = .fatalExit
      "connection_max_buffer and or total_max_buffer must be set to a non-zero value" ∧
    mainStartup 0 1 = .started :=
  ⟨(claim_C7_startup_gate 0 0).1 ⟨rfl, rfl⟩,
   (claim_C7_startup_gate 0 1).2 (Or.inr (by decide))⟩

/-- C4 (counterexample): the claimed propagation order — capture, then
decode, then dispatch, then pool close-all, then pager stop — does not hold
on the EOF shutdown trace: `Inquisitor.Stop` signals dispatch first and
capture third. -/
theorem claim_C4_order_counterexample :
    ¬ (shutdownIndex .stopCaptureSignal eofShutdownTrace <
         shutdownIndex .stopDecodeSignal eofShutdownTrace ∧
       shutdownIndex .stopDecodeSignal eofShutdownTrace <
         shutdownIndex .stopDispatchSignal eofShutdownTrace ∧
       shutdownIndex .stopDispatchSignal eofShutdownTrace <
         shutdownIndex .poolCloseAll eofShutdownTrace ∧
       shutdownIndex .poolCloseAll eofShutdownTrace <
         shutdownIndex .pagerStop eofShutdownTrace) := by
  decide

/-- C4 (amended): on end-of-stream the capture goroutine calls
`Inquisitor.Stop`, whose stop actions propagate in the order dispatch, then
decode, then capture, then `pool.CloseAllConnections`, then the capture
handle close, then pager stop. -/
theorem claim_C4_eof_shutdown_order :
    shutdownIndex .stopDispatchSignal eofShutdownTrace <
      shutdownIndex .stopDecodeSignal eofShutdownTrace ∧
    shutdownIndex .stopDecodeSignal eofShutdownTrace <
      shutdownIndex .stopCaptureSignal eofShutdownTrace ∧
    shutdownIndex .stopCaptureSignal eofShutdownTrace <
      shutdownIndex .poolCloseAll eofShutdownTrace ∧
    shutdownIndex .poolCloseAll eofShutdownTrace <
      shutdownIndex .handleClose eofShutdownTrace ∧
    shutdownIndex .handleClose eofShutdownTrace <
      shutdownIndex .pagerStop eofShutdownTrace ∧
    eofShutdownTrace = inquisitorStopTrace := by
  decide

/-- C5: the dispatcher's timer has period `TcpIdleTimeout`, and a tick at
wall-clock `now` (with no close request pending) performs exactly
`pool.CloseOlderThan(now − TcpIdleTimeout)`; consequently every connection
idle for longer than `TcpIdleTimeout` at that tick is closed by it. -/
theorem claim_C5_idle_reaping (mcc timeout now : Int) (st : DispatcherState)
    (conns : List Connection) (hpend : st.pendingClose = []) :
    tickerPeriod timeout = timeout ∧
    (dispatchCycle mcc timeout st (.tick now)).2 =
      [.reapOlderThan (now - timeout)] ∧
    ∀ c ∈ conns, timeout < now - c.lastSeen →
      c.Close ∈ (CloseOlderThan (now - timeout) conns).1 := by
  refine ⟨rfl, ?_, ?_⟩
  · unfold dispatchCycle
    rw [hpend]
    rfl
  · intro c hmem hidle
    have hle : c.lastSeen ≤ now - timeout := by omega
    rw [CloseOlderThan_spec]
    have h := List.mem_map_of_mem
      (fun c : Connection => if c.lastSeen ≤ now - timeout then c.Close else c)
      hmem
    simpa [hle] using h

theorem claim_C5_idle_reaping_witness :
    tickerPeriod 5 = 5 ∧
    (dispatchCycle 0 5 stEmpty (.tick 100)).2 = [.reapOlderThan 95] ∧
    Connection.Close ⟨90, false⟩ ∈ (CloseOlderThan 95 [⟨90, false⟩]).1 :=
  ⟨(claim_C5_idle_reaping 0 5 100 stEmpty [⟨90, false⟩] rfl).1,
   (claim_C5_idle_reaping 0 5 100 stEmpty [⟨90, false⟩] rfl).2.1,
   (claim_C5_idle_reaping 0 5 100 stEmpty [⟨90, false⟩] rfl).2.2
     ⟨90, false⟩ (by decide) (by decide)⟩

/-- The packet-handling arm of the dispatcher never emits a `conn.Stop()`
event: close requests are handled only by the first, non-blocking select. -/
theorem dispatchManifest_no_stop (mcc : Int) (st : DispatcherState)
    (m : PacketManifest) (x : ConnId) :
    DispEvent.stopConn x ∉ (dispatchManifest mcc st m).2 := by
  unfold dispatchManifest
  split
  · split <;> simp
  · split <;> simp

/-- C6 (counterexample): with connections 0 and 1 both blocked on the
close-request channel (0 first) and a packet for connection 1's flow
arriving, the cycle stops only connection 0 and still delivers the packet
to connection 1 — a connection that has requested closure receives a packet
dispatched later in the same cycle, refuting the claim as stated. -/
theorem claim_C6_counterexample :
    1 ∈ stPending.pendingClose ∧
    DispEvent.stopConn 1 ∉ (dispatchCycle 0 5 stPending (.packet manifestB)).2 ∧
    DispEvent.receivePacket 1 manifestB ∈
      (dispatchCycle 0 5 stPending (.packet manifestB)).2 := by
  decide

/-- C6 (amended): each dispatcher cycle processes at most one pending
close-request — the oldest — and does so before any packet manifest is
ingested in that cycle: the cycle's trace is that `conn.Stop()` followed by
the packet-handling events, and no other stop occurs in the cycle.
Connections whose requests are still pending can receive packets in the
same cycle. -/
theorem claim_C6_close_before_ingest (mcc timeout : Int)
    (st : DispatcherState) (c : ConnId) (rest : List ConnId)
    (m : PacketManifest) (hp : st.pendingClose = c :: rest) :
    dispatchCycle mcc timeout st (.packet m) =
      ((dispatchManifest mcc { st with pendingClose := rest } m).1,
        .stopConn c ::
          (dispatchManifest mcc { st with pendingClose := rest } m).2) ∧
    ∀ x, DispEvent.stopConn x ∈ (dispatchCycle mcc timeout st (.packet m)).2 →
      x = c := by
  have hcycle : dispatchCycle mcc timeout st (.packet m) =
      ((dispatchManifest mcc { st with pendingClose := rest } m).1,
        .stopConn c ::
          (dispatchManifest mcc { st with pendingClose := rest } m).2) := by
    unfold dispatchCycle
    rw [hp]
    simp
  refine ⟨hcycle, ?_⟩
  intro x hx
  rw [hcycle] at hx
  rcases List.mem_cons.mp hx with h | h
  · cases h
    rfl
  · exact absurd h (dispatchManifest_no_stop mcc _ m x)

theorem claim_C6_close_before_ingest_witness :
    dispatchCycle 0 5 stPending (.packet manifestB) =
      ((dispatchManifest 0 { stPending with pendingClose := [1] } manifestB).1,
        .stopConn 0 ::
          (dispatchManifest 0 { stPending with pendingClose := [1] } manifestB).2) ∧
    ∀ x, DispEvent.stopConn x ∈ (dispatchCycle 0 5 stPending (.packet manifestB)).2 →
      x = 0 :=
  claim_C6_close_before_ingest 0 5 stPending 0 [1] manifestB rfl

theorem decodeAll_cons (parse : List Nat → Option ParsedLayers)
    (v : DecoderVars) (p : RawPacket) (ps : List RawPacket) :
    decodeAll parse v (p :: ps) =
      match (decodeOne parse v p).2 with
      | none => decodeAll parse (decodeOne parse v p).1 ps
      | some m => m :: decodeAll parse (decodeOne parse v p).1 ps := by
  cases h : decodeOne parse v p with
  | mk v' om => cases om <;> simp [decodeAll, h]

/-- C8: a raw packet on which the parser fails is dropped and the decode
loop continues — no manifest is emitted for it, and the manifests produced
for the rest of the stream are exactly those produced without the bad
packet. -/
theorem claim_C8_parse_failure_drop (parse : List Nat → Option ParsedLayers)
    (v : DecoderVars) (bad : RawPacket) (ps qs : List RawPacket)
    (hbad : parse bad.raw = none) :
    (decodeOne parse v bad).2 = none ∧
    decodeAll parse v (ps ++ bad :: qs) = decodeAll parse v (ps ++ qs) := by
  constructor
  · unfold decodeOne
    rw [hbad]
  · induction ps generalizing v with
    | nil =>
      simp only [List.nil_append]
      rw [decodeAll_cons]
      have h1 : decodeOne parse v bad = ({ payload := [] }, none) := by
        unfold decodeOne
        rw [hbad]
      rw [h1]
      exact decodeAll_vars_irrelevant parse { payload := [] } v qs
    | cons p ps ih =>
      simp only [List.cons_append]
      rw [decodeAll_cons, decodeAll_cons, ih (decodeOne parse v p).1]

theorem claim_C8_parse_failure_drop_witness :
    (decodeOne
        (fun raw => if raw = [9] then none
          else some { flow := flowA, payload := some raw })
        { payload := [] } { timestamp := 0, raw := [9] }).2 = none ∧
    decodeAll
        (fun raw => if raw = [9] then none
          else some { flow := flowA, payload := some raw })
        { payload := [] }
        ([{ timestamp := 0, raw := [1] }] ++
          { timestamp := 0, raw := [9] } ::
            [{ timestamp := 0, raw := [2] }]) =
      decodeAll
        (fun raw => if raw = [9] then none
          else some { flow := flowA, payload := some raw })
        { payload := [] }
        ([{ timestamp := 0, raw := [1] }] ++ [{ timestamp := 0, raw := [2] }]) :=
  claim_C8_parse_failure_drop
    (fun raw => if raw = [9] then none
      else some { flow := flowA, payload := some raw })
    { payload := [] } { timestamp := 0, raw := [9] }
    [{ timestamp := 0, raw := [1] }] [{ timestamp := 0, raw := [2] }]
    (by decide)

theorem Put_find (p : ConnectionPool) (f g : TcpIpFlow) (c : ConnId)
    (h : canonKey g = canonKey f) :
    (p.Put f c).connectionMap.find? (fun kv => decide (kv.1 = canonKey g)) =
      some (canonKey f, c) := by
  unfold ConnectionPool.Put
  simp [List.find?, h]

/-- C9: dispatching a packet for an untracked flow (capacity allowing)
performs, in order, `pool.Put`, `conn.Start()`, then
`conn.ReceivePacket` — so the pool registers the connection before the
triggering manifest is delivered, the delivered connection is found in the
resulting pool, and a second packet of the same conversation (either
direction) is delivered to that same connection without creating another
one. -/
theorem claim_C9_put_before_deliver (mcc : Int) (st : DispatcherState)
    (m m2 : PacketManifest) (hnew : st.pool.Has m.Flow = false)
    (hcap : mcc = 0 ∨ (st.pool.Len : Int) < mcc)
    (hflow : canonKey m2.Flow = canonKey m.Flow) :
    (dispatchManifest mcc st m).2 =
      [.poolPut m.Flow st.nextConnId, .connStart st.nextConnId,
       .receivePacket st.nextConnId m] ∧
    (dispatchManifest mcc st m).1.pool.Has m.Flow = true ∧
    (dispatchManifest mcc st m).1.pool.Get m.Flow = .ok st.nextConnId ∧
    dispatchManifest mcc (dispatchManifest mcc st m).1 m2 =
      ((dispatchManifest mcc st m).1,
       [.receivePacket st.nextConnId m2]) := by
  have hnotfull : ¬ (mcc ≠ 0 ∧ (st.pool.Len : Int) ≥ mcc) := by
    rcases hcap with h | h
    · intro hc
      exact hc.1 h
    · intro hc
      omega
  have hstep : dispatchManifest mcc st m =
      ({ st with pool := st.pool.Put m.Flow st.nextConnId,
                 nextConnId := st.nextConnId + 1 },
       [.poolPut m.Flow st.nextConnId, .connStart st.nextConnId,
        .receivePacket st.nextConnId m]) := by
    unfold dispatchManifest
    rw [hnew]
    simp only [Bool.false_eq_true, if_false]
    rw [if_neg hnotfull]
  rw [hstep]
  have hhas : (st.pool.Put m.Flow st.nextConnId).Has m2.Flow = true := by
    unfold ConnectionPool.Has
    rw [Put_find st.pool m.Flow m2.Flow st.nextConnId hflow]
    rfl
  have hget : (st.pool.Put m.Flow st.nextConnId).Get m2.Flow =
      .ok st.nextConnId := by
    unfold ConnectionPool.Get
    rw [Put_find st.pool m.Flow m2.Flow st.nextConnId hflow]
  have hhas1 : (st.pool.Put m.Flow st.nextConnId).Has m.Flow = true := by
    unfold ConnectionPool.Has
    rw [Put_find st.pool m.Flow m.Flow st.nextConnId rfl]
    rfl
  have hget1 : (st.pool.Put m.Flow st.nextConnId).Get m.Flow =
      .ok st.nextConnId := by
    unfold ConnectionPool.Get
    rw [Put_find st.pool m.Flow m.Flow st.nextConnId rfl]
  refine ⟨rfl, hhas1, hget1, ?_⟩
  unfold dispatchManifest
  simp only at hhas hget ⊢
  rw [hhas, hget]
  simp

theorem claim_C9_put_before_deliver_witness :
    (dispatchManifest 0 stEmpty manifestA).2 =
      [.poolPut manifestA.Flow 0, .connStart 0, .receivePacket 0 manifestA] ∧
    (dispatchManifest 0 stEmpty manifestA).1.pool.Has manifestA.Flow = true ∧
    (dispatchManifest 0 stEmpty manifestA).1.pool.Get manifestA.Flow = .ok 0 ∧
    dispatchManifest 0 (dispatchManifest 0 stEmpty manifestA).1 manifestArev =
      ((dispatchManifest 0 stEmpty manifestA).1,
       [.receivePacket 0 manifestArev]) :=
  claim_C9_put_before_deliver 0 stEmpty manifestA manifestArev (by decide)
    (Or.inl rfl) (by decide)

/-- C10: the decoder resets the shared `payload` layer variable to an empty
payload before decoding each raw packet, so the manifest emitted for a
packet is independent of the decoder state left by every earlier packet; a
successfully parsed segment that carries no payload layer always yields an
empty `Payload` field, and one that carries payload bytes yields exactly
those bytes — never leftovers from the previous packet. -/
theorem claim_C10_payload_reset (parse : List Nat → Option ParsedLayers)
    (v : DecoderVars) (p1 p2 : RawPacket) (pr : ParsedLayers)
    (h2 : parse p2.raw = some pr) :
    (∀ v', (decodeOne parse v' p2).2 = (decodeOne parse v p2).2) ∧
    (pr.payload = none →
      (decodeOne parse (decodeOne parse v p1).1 p2).2 =
        some { Timestamp := p2.timestamp, Flow := pr.flow,
               RawPacket := p2.raw, Payload := [] }) ∧
    (∀ bytes, pr.payload = some bytes →
      (decodeOne parse (decodeOne parse v p1).1 p2).2 =
        some { Timestamp := p2.timestamp, Flow := pr.flow,
               RawPacket := p2.raw, Payload := bytes }) := by
  refine ⟨fun v' => by rw [decodeOne_vars_irrelevant parse v' v p2], ?_, ?_⟩
  · intro hnone
    rw [decodeOne_vars_irrelevant parse (decodeOne parse v p1).1 v p2]
    unfold decodeOne
    rw [h2]
    simp only [hnone]
  · intro bytes hsome
    rw [decodeOne_vars_irrelevant parse (decodeOne parse v p1).1 v p2]
    unfold decodeOne
    rw [h2]
    simp only [hsome]

theorem claim_C10_payload_reset_witness :
    (decodeOne
        (fun raw => if raw = [7] then some { flow := flowA, payload := none }
          else some { flow := flowA, payload := some raw })
        (decodeOne
          (fun raw => if raw = [7] then some { flow := flowA, payload := none }
            else some { flow := flowA, payload := some raw })
          { payload := [] } { timestamp := 0, raw := [1, 2, 3] }).1
        { timestamp := 1, raw := [7] }).2 =
      some { Timestamp := 1, Flow := flowA, RawPacket := [7], Payload := [] } :=
  (claim_C10_payload_reset
    (fun raw => if raw = [7] then some { flow := flowA, payload := none }
      else some { flow := flowA, payload := some raw })
    { payload := [] } { timestamp := 0, raw := [1, 2, 3] }
    { timestamp := 1, raw := [7] } { flow := flowA, payload := none }
    (by decide)).2.1 rfl

end HoneyBadger
